import Mathlib

/-!
Shallow embedding of the Valuation & Rebalancing Engine of the
portfolio-tracker backend (`backend/performance.py`, `backend/rebalancing.py`,
`backend/db.py`, `backend/main.py`).

Python floats are modelled as rationals (`ℚ`); SQL tables are modelled as
lists of rows; `order_by(desc(ts)).first()` is modelled by `latestBy`;
Python dicts (insertion-ordered) are modelled as association lists with
`updSet` (overwrite) and `updAdd` (defaultdict-style accumulate).
-/

/-- Row of the `instruments` table (`backend/models.py`). -/
structure Instrument where
  id : Nat
  code : String
  name : String
  asset_class : String
  currency : String
deriving DecidableEq, Repr

/-- Row of the `positions` table (`backend/models.py`). -/
structure Position where
  account_id : Nat
  instrument_id : Nat
  quantity : ℚ
  cost_basis : ℚ
  entry_total : ℚ
deriving DecidableEq, Repr

/-- Row of the `prices` table (`backend/models.py`): price observation for one
instrument, timestamped. -/
structure Price where
  instrument_id : Nat
  ts : Nat
  price : ℚ
deriving DecidableEq, Repr

/-- Row of the `fx_rates` table (`backend/models.py`). -/
structure FxRate where
  ccy : String
  ts : Nat
  rate_vs_eur : ℚ
deriving DecidableEq, Repr

/-- One policy target (`backend/models.py` `PolicyTarget` row /
`backend/schemas.py` `PolicyTargetIn`). -/
structure PolicyTarget where
  asset_class : String
  weight : ℚ
  band : ℚ
deriving DecidableEq, Repr

/-- The stored policy together with its targets (`Policy` row plus its
`PolicyTarget` rows; also the shape of `schemas.PolicyIn`). -/
structure PolicyIn where
  base_currency : String
  targets : List PolicyTarget
deriving DecidableEq, Repr

/-- Row of the `position_snapshots` table (`backend/models.py`). -/
structure PositionSnapshot where
  account_id : Nat
  instrument_id : Nat
  ts : Nat
  qty : ℚ
  px_eur : ℚ
  value_eur : ℚ
deriving DecidableEq, Repr

/-- Row of the `portfolio_snapshots` table (`backend/models.py`). -/
structure PortfolioSnapshot where
  ts : Nat
  total_value_eur : ℚ
  by_sleeve_json : List (String × ℚ)
deriving DecidableEq, Repr

/-- The persisted database state visible to the engine. -/
structure DB where
  instruments : List Instrument
  positions : List Position
  prices : List Price
  fx_rates : List FxRate
  policy : Option PolicyIn
  position_snapshots : List PositionSnapshot
  portfolio_snapshots : List PortfolioSnapshot
deriving DecidableEq, Repr

/-- Association-list lookup (Python `dict.get` / `dict[k]`). -/
def alookup {β : Type} (m : List (String × β)) (k : String) : Option β :=
  match m with
  | [] => none
  | (k', v) :: rest => if k' = k then some v else alookup rest k

/-- Dict assignment `m[k] = v`: overwrite if present, else append (Python
dicts preserve insertion order). -/
def updSet {β : Type} (m : List (String × β)) (k : String) (v : β) :
    List (String × β) :=
  match m with
  | [] => [(k, v)]
  | (k', v') :: rest =>
    if k' = k then (k', v) :: rest else (k', v') :: updSet rest k v

/-- `defaultdict(float)` accumulation `m[k] += v`. -/
def updAdd (m : List (String × ℚ)) (k : String) (v : ℚ) : List (String × ℚ) :=
  match m with
  | [] => [(k, v)]
  | (k', v') :: rest =>
    if k' = k then (k', v' + v) :: rest else (k', v') :: updAdd rest k v

/-- `order_by(desc(ts)).first()`: latest element by timestamp (first inserted
wins on ties, matching an unspecified database tie order). -/
def latestBy {α : Type} (ts : α → Nat) (l : List α) : Option α :=
  l.foldl
    (fun acc x =>
      match acc with
      | none => some x
      | some y => if ts y < ts x then some x else some y)
    none

/-- `ASSET_NORMALIZE` table from `backend/performance.py`. -/
def ASSET_NORMALIZE : List (String × String) :=
  [("Equity ETF", "Equity"), ("Stock", "Equity"), ("Equity", "Equity"),
   ("Bond", "Bonds"), ("Bonds", "Bonds"), ("Fund", "Fund"),
   ("Crypto", "Crypto"), ("Commodity", "Commodity"), ("Lending", "Lending"),
   ("Cash", "Cash"), ("Other", "Other")]

/-- `ASSET_NORMALIZE.get(inst.asset_class, inst.asset_class or "Other")`:
normalize a loose asset-class label to a sleeve name; unrecognized labels
pass through (empty label falls back to "Other"). -/
def normalizeSleeve (asset_class : String) : String :=
  match alookup ASSET_NORMALIZE asset_class with
  | some sleeve => sleeve
  | none => if asset_class = "" then "Other" else asset_class

/-- `s.query(Instrument).filter(Instrument.id == inst_id).first()`. -/
def findInstrument (db : DB) (inst_id : Nat) : Option Instrument :=
  db.instruments.find? (fun i => i.id == inst_id)

/-- `latest_px_eur` from `backend/performance.py`: most recent price for an
instrument converted to EUR with the latest FX rate; 0 when no price, or when
a needed FX rate is missing or non-positive; Crypto prices and EUR-native
prices are returned unconverted. -/
def latest_px_eur (db : DB) (inst_id : Nat) (inst_ccy : String) : ℚ :=
  let inst := findInstrument db inst_id
  match latestBy (fun p => p.ts)
      (db.prices.filter (fun p => p.instrument_id == inst_id)) with
  | none => 0
  | some p =>
    if inst.any (fun i => i.asset_class == "Crypto") then p.price
    else if inst_ccy.toUpper = "EUR" then p.price
    else
      match latestBy (fun f => f.ts)
          (db.fx_rates.filter (fun f => f.ccy == inst_ccy.toUpper)) with
      | none => 0
      | some fx =>
        if fx.rate_vs_eur = 0 then 0
        else if fx.rate_vs_eur ≤ 0 then 0
        else p.price / fx.rate_vs_eur

/-- `_fallback_value` from `backend/performance.py`: valuation used when no
live price is available — entry_total if positive, else quantity × cost_basis
if both positive, else 0. -/
def fallback_value (pos : Position) : ℚ :=
  if 0 < pos.entry_total then pos.entry_total
  else if pos.cost_basis ≠ 0 ∧ 0 < pos.cost_basis ∧
      pos.quantity ≠ 0 ∧ 0 < pos.quantity then
    pos.quantity * pos.cost_basis
  else 0

/-- The per-position valuation expression shared by `latest_overview`,
`capture_eod_snapshots` and `get_positions`:
`(quantity * px_eur) if px_eur > 0 else _fallback_value(pos)`. -/
def resolved_value (db : DB) (pos : Position) (inst : Instrument) : ℚ :=
  let px_eur := latest_px_eur db inst.id inst.currency
  if 0 < px_eur then pos.quantity * px_eur else fallback_value pos

/-- The joined rows `s.query(Position, Instrument).join(...)`. -/
def rows (db : DB) : List (Position × Instrument) :=
  db.positions.filterMap
    (fun pos => (findInstrument db pos.instrument_id).map (fun i => (pos, i)))

/-- A sleeve line of the overview (`schemas.SleeveWeight`). -/
structure SleeveWeight where
  asset_class : String
  value : ℚ
  weight : ℚ
  freshness : String
deriving DecidableEq, Repr

/-- `schemas.PortfolioOverview`. -/
structure PortfolioOverview where
  total_value : ℚ
  by_sleeve : List SleeveWeight
  drift : List (String × ℚ)
deriving DecidableEq, Repr

/-- Mutable loop state of `latest_overview`: `sleeves_value`,
`sleeves_fresh` (defaultdicts) and `total`. -/
structure OvState where
  sleeves_value : List (String × ℚ)
  sleeves_fresh : List (String × String)
  total : ℚ
deriving DecidableEq, Repr

/-- One iteration of the `for pos, inst in rows` loop of `latest_overview`. -/
def ovStep (db : DB) (st : OvState) (row : Position × Instrument) : OvState :=
  let sleeve := normalizeSleeve row.2.asset_class
  let px_eur := latest_px_eur db row.2.id row.2.currency
  if 0 < px_eur then
    { sleeves_value := updAdd st.sleeves_value sleeve (row.1.quantity * px_eur)
      sleeves_fresh := updSet st.sleeves_fresh sleeve "ok"
      total := st.total + row.1.quantity * px_eur }
  else
    { sleeves_value := updAdd st.sleeves_value sleeve (fallback_value row.1)
      sleeves_fresh := st.sleeves_fresh
      total := st.total + fallback_value row.1 }

/-- The `targets` dict built in `latest_overview`: empty if no policy row,
else `targets[t.asset_class] = t.weight` over the policy target rows. -/
def overviewTargets (db : DB) : List (String × ℚ) :=
  match db.policy with
  | none => []
  | some pol =>
    pol.targets.foldl (fun m t => updSet m t.asset_class t.weight) []

/-- The drift dict of `latest_overview`:
`target = targets.get(sw.asset_class, sw.weight)` and
`drift[sw.asset_class] = sw.weight - (target or 0.0)`. -/
def driftMap (targets : List (String × ℚ)) (by_sleeve : List SleeveWeight) :
    List (String × ℚ) :=
  by_sleeve.foldl
    (fun d sw =>
      let target := (alookup targets sw.asset_class).getD sw.weight
      updSet d sw.asset_class (sw.weight - (if target = 0 then 0 else target)))
    []

/-- The element of the `by_sleeve` list comprehension of `latest_overview`:
`SleeveWeight(asset_class=k, value=v, weight=v/total if total > 0 else 0.0,
freshness=sleeves_fresh[k])`. -/
def sleeveLine (total : ℚ) (fresh : List (String × String))
    (kv : String × ℚ) : SleeveWeight :=
  { asset_class := kv.1
    value := kv.2
    weight := if 0 < total then kv.2 / total else 0
    freshness := (alookup fresh kv.1).getD "stale" }

/-- `latest_overview` from `backend/performance.py`: value/weight/freshness
per sleeve plus drift versus the saved policy targets. -/
def latest_overview (db : DB) : PortfolioOverview :=
  let st := (rows db).foldl (ovStep db) ⟨[], [], 0⟩
  let by_sleeve := st.sleeves_value.map (sleeveLine st.total st.sleeves_fresh)
  { total_value := st.total
    by_sleeve := by_sleeve
    drift := driftMap (overviewTargets db) by_sleeve }

/-- Mutable loop state of `capture_eod_snapshots`: accumulated sleeve values,
running total, and the `PositionSnapshot` rows added to the session so far. -/
structure SnapState where
  sleeves_value : List (String × ℚ)
  total : ℚ
  snaps : List PositionSnapshot
deriving DecidableEq, Repr

/-- One iteration of the `for pos, inst in rows` loop of
`capture_eod_snapshots` (the snapshot timestamp `ts` models the
server-side `now()` default). -/
def snapStep (db : DB) (ts : Nat) (st : SnapState) (row : Position × Instrument) :
    SnapState :=
  let px_eur := latest_px_eur db row.2.id row.2.currency
  let val := if 0 < px_eur then row.1.quantity * px_eur else fallback_value row.1
  { sleeves_value := updAdd st.sleeves_value (normalizeSleeve row.2.asset_class) val
    total := st.total + val
    snaps := st.snaps ++
      [{ account_id := row.1.account_id
         instrument_id := row.2.id
         ts := ts
         qty := row.1.quantity
         px_eur := px_eur
         value_eur := val }] }

/-- `capture_eod_snapshots` from `backend/performance.py`, as the batch of
pending session writes it produces: one `PositionSnapshot` per joined row and
one aggregate `PortfolioSnapshot`. -/
def capture_eod_snapshots (db : DB) (ts : Nat) :
    List PositionSnapshot × PortfolioSnapshot :=
  let st := (rows db).foldl (snapStep db ts) ⟨[], 0, []⟩
  (st.snaps, { ts := ts, total_value_eur := st.total,
               by_sleeve_json := st.sleeves_value })

/-- The `for pos, inst in rows` loop of `capture_eod_snapshots` with an
injected fault: processing row number `failAt` (0-based) raises instead of
adding its snapshot; `failAt = (rows db).length` raises after the loop,
before the portfolio snapshot is added. -/
def captureGo (db : DB) (ts : Nat) (failAt : Option Nat) :
    Nat → SnapState → List (Position × Instrument) → Except String SnapState
  | _, st, [] => Except.ok st
  | idx, st, r :: rest =>
    if failAt = some idx then Except.error "simulated failure"
    else captureGo db ts failAt (idx + 1) (snapStep db ts st r) rest

/-- `capture_eod_snapshots` run inside the request session with the injected
fault of `captureGo`: either the full pending batch, or the exception. -/
def capture_eod_snapshots_faulty (db : DB) (ts : Nat) (failAt : Option Nat) :
    Except String (List PositionSnapshot × PortfolioSnapshot) :=
  match captureGo db ts failAt 0 ⟨[], 0, []⟩ (rows db) with
  | Except.error e => Except.error e
  | Except.ok st =>
    if failAt = some (rows db).length then Except.error "simulated failure"
    else Except.ok (st.snaps, { ts := ts, total_value_eur := st.total,
                                by_sleeve_json := st.sleeves_value })

/-- The `/admin/snapshot` endpoint (`capture_snapshot` in `backend/main.py`):
`with db.SessionLocal() as s: capture_eod_snapshots(s); s.commit()`.
On success the pending batch is committed into the store; on an exception the
session is closed without commit, so the pending rows are discarded and the
persisted state is unchanged (the endpoint reports failure). -/
def capture_snapshot (db : DB) (ts : Nat) (failAt : Option Nat) : DB × Bool :=
  match capture_eod_snapshots_faulty db ts failAt with
  | Except.ok pending =>
    ({ db with
        position_snapshots := db.position_snapshots ++ pending.1
        portfolio_snapshots := db.portfolio_snapshots ++ [pending.2] }, true)
  | Except.error _ => (db, false)

/-- `history` from `backend/performance.py`:
`query(PortfolioSnapshot).order_by(PortfolioSnapshot.ts.asc())`, projected to
`(ts, total_value_eur)` points. -/
def history (db : DB) : List (Nat × ℚ) :=
  (db.portfolio_snapshots.mergeSort (fun a b => a.ts ≤ b.ts)).map
    (fun snap => (snap.ts, snap.total_value_eur))

/-- `schemas.TradeSuggestion`. -/
structure TradeSuggestion where
  asset_class : String
  action : String
  amount : ℚ
deriving DecidableEq, Repr

/-- `schemas.RebalanceOut`. -/
structure RebalanceOut where
  hard_drift : List String
  suggestions : List TradeSuggestion
deriving DecidableEq, Repr

/-- The `policy_targets` dict of `suggest_trades`:
`{t.asset_class: t for t in policy.targets}`. -/
def policyTargetsMap (pol : PolicyIn) : List (String × PolicyTarget) :=
  pol.targets.foldl (fun m t => updSet m t.asset_class t) []

/-- One iteration of the `for sleeve in overview.by_sleeve` loop of
`suggest_trades` (`backend/rebalancing.py`), appending to the accumulated
`hard_drift` and `suggestions` lists. -/
def rebStep (ov : PortfolioOverview) (pol : PolicyIn)
    (acc : List String × List TradeSuggestion) (sleeve : SleeveWeight) :
    List String × List TradeSuggestion :=
  match alookup (policyTargetsMap pol) sleeve.asset_class with
  | none => acc
  | some target =>
    let drift := sleeve.weight - target.weight
    if target.band < |drift| then
      let trade_amount := ov.total_value * target.weight - sleeve.value
      let action := if 0 < trade_amount then "BUY" else "SELL"
      (acc.1 ++ [sleeve.asset_class],
       acc.2 ++ [{ asset_class := sleeve.asset_class, action := action,
                   amount := |trade_amount| }])
    else acc

/-- `suggest_trades` from `backend/rebalancing.py`. -/
def suggest_trades (ov : PortfolioOverview) (pol : PolicyIn) : RebalanceOut :=
  let acc := ov.by_sleeve.foldl (rebStep ov pol) ([], [])
  { hard_drift := acc.1, suggestions := acc.2 }

/-- `get_policy` from `backend/db.py`: the stored policy with its targets,
or `None`. -/
def get_policy (db : DB) : Option PolicyIn :=
  db.policy

/-- The `/rebalance` endpoint (`get_rebalance` in `backend/main.py`): compute
the overview, then fail with HTTP 400 "No policy set." when no policy is
configured, else return `suggest_trades(latest, policy)`. -/
def get_rebalance (db : DB) : Except String RebalanceOut :=
  let latest := latest_overview db
  match get_policy db with
  | none => Except.error "No policy set."
  | some pol => Except.ok (suggest_trades latest pol)

/-- The contribution of one sleeve to `hard_drift` in `suggest_trades`
(specification-side restatement of the loop body, used to characterize the
fold). -/
def rebFlag (pol : PolicyIn) (sleeve : SleeveWeight) : Option String :=
  match alookup (policyTargetsMap pol) sleeve.asset_class with
  | none => none
  | some target =>
    if target.band < |sleeve.weight - target.weight| then some sleeve.asset_class
    else none

/-- The contribution of one sleeve to `suggestions` in `suggest_trades`
(specification-side restatement of the loop body, used to characterize the
fold). -/
def rebSugg (ov : PortfolioOverview) (pol : PolicyIn) (sleeve : SleeveWeight) :
    Option TradeSuggestion :=
  match alookup (policyTargetsMap pol) sleeve.asset_class with
  | none => none
  | some target =>
    if target.band < |sleeve.weight - target.weight| then
      some { asset_class := sleeve.asset_class
             action := if 0 < ov.total_value * target.weight - sleeve.value
                       then "BUY" else "SELL"
             amount := |ov.total_value * target.weight - sleeve.value| }
    else none

/-- Keys of an association list. -/
def keys {β : Type} (m : List (String × β)) : List String :=
  m.map Prod.fst

/-- Sum of the values of an association list. -/
def sumVals (m : List (String × ℚ)) : ℚ :=
  (m.map Prod.snd).sum

/-! ### Concrete database states used as witnesses and counterexamples. -/

/-- A EUR-native Equity instrument. -/
def instEq : Instrument := ⟨1, "AAA", "Aaa", "Equity", "EUR"⟩

/-- A long one-unit position in `instEq`. -/
def posEq : Position := ⟨1, 1, 1, 0, 0⟩

/-- A store with one priced Equity position and a policy with no targets. -/
def dbC1 : DB := ⟨[instEq], [posEq], [⟨1, 1, 10⟩], [], some ⟨"EUR", []⟩, [], []⟩

/-- Same store but the policy has an Equity target of 60% with a 5% band. -/
def dbP : DB :=
  ⟨[instEq], [posEq], [⟨1, 1, 10⟩], [],
   some ⟨"EUR", [⟨"Equity", 6/10, 1/20⟩]⟩, [], []⟩

/-- The single sleeve line produced by `latest_overview dbP`. -/
def sleeveP : SleeveWeight := ⟨"Equity", 10, 1, "ok"⟩

/-- A EUR-native Fund instrument. -/
def instFund : Instrument := ⟨1, "FFF", "Fff", "Fund", "EUR"⟩

/-- Position with entry_total 1000, cost_basis 50, quantity 10. -/
def posC2 : Position := ⟨1, 1, 10, 50, 1000⟩

/-- A store holding `posC2` with no price observation at all. -/
def dbC2 : DB := ⟨[instFund], [posC2], [], [], none, [], []⟩

/-- A USD-native Equity instrument. -/
def instA : Instrument := ⟨1, "A", "A", "Equity", "USD"⟩

/-- A EUR-native Cash instrument. -/
def instB : Instrument := ⟨2, "B", "B", "Cash", "EUR"⟩

/-- The end-to-end scenario of the spec: 10 units of a USD instrument priced
50 with USD rate 1.08, and 5 units of EUR cash priced 1. -/
def dbE2E : DB :=
  ⟨[instA, instB], [⟨1, 1, 10, 0, 0⟩, ⟨1, 2, 5, 0, 0⟩],
   [⟨1, 1, 50⟩, ⟨2, 2, 1⟩], [⟨"USD", 1, 27/25⟩], none, [], []⟩

/-- A short position (negative quantity) in `instEq`. -/
def posNeg : Position := ⟨1, 1, -1, 0, 0⟩

/-- A store where `posNeg` has a positive live price of 10. -/
def dbC6 : DB := ⟨[instEq], [posNeg], [⟨1, 1, 10⟩], [], none, [], []⟩

/-- A closed position (negative quantity) with a recorded entry total. -/
def posC10 : Position := ⟨1, 1, -2, 0, 500⟩

/-- A store holding the closed position `posC10` with no price observation. -/
def dbC10 : DB := ⟨[instEq], [posC10], [], [], none, [], []⟩

/-- A store with three portfolio snapshots inserted out of timestamp order. -/
def dbH : DB :=
  ⟨[], [], [], [], none, [], [⟨3, 30, []⟩, ⟨1, 10, []⟩, ⟨2, 20, []⟩]⟩

/-- A concrete overview: Equity 70%, Bonds 30%, Cash 0%. -/
def ovR : PortfolioOverview :=
  ⟨1000,
   [⟨"Equity", 700, 7/10, "ok"⟩, ⟨"Bonds", 300, 3/10, "ok"⟩,
    ⟨"Cash", 0, 0, "stale"⟩], []⟩

/-- The Equity sleeve line of `ovR`. -/
def sleeveEq : SleeveWeight := ⟨"Equity", 700, 7/10, "ok"⟩

/-- A policy targeting Equity 60% (band 5%) and Bonds 40% (band 10%). -/
def polR : PolicyIn := ⟨"EUR", [⟨"Equity", 6/10, 1/20⟩, ⟨"Bonds", 4/10, 1/10⟩]⟩

/-- The Equity target row of `polR`. -/
def targetEq : PolicyTarget := ⟨"Equity", 6/10, 1/20⟩

/-- A store with one USD instrument priced 100 and a USD rate of 1.10. -/
def dbW : DB :=
  ⟨[instA], [⟨1, 1, 1, 0, 0⟩], [⟨1, 1, 100⟩], [⟨"USD", 1, 11/10⟩],
   none, [], []⟩

/-! ### Association-list lemmas -/

theorem keys_nil {β : Type} : keys ([] : List (String × β)) = [] := rfl

theorem keys_cons {β : Type} (k : String) (v : β) (tl : List (String × β)) :
    keys ((k, v) :: tl) = k :: keys tl := rfl

theorem sumVals_nil : sumVals [] = 0 := rfl

theorem sumVals_cons (k : String) (v : ℚ) (tl : List (String × ℚ)) :
    sumVals ((k, v) :: tl) = v + sumVals tl := by
  simp [sumVals]

theorem alookup_updSet {β : Type} (m : List (String × β)) (k : String) (v : β)
    (k2 : String) :
    alookup (updSet m k v) k2 = if k = k2 then some v else alookup m k2 := by
  induction m with
  | nil => simp [updSet, alookup]
  | cons hd tl ih =>
    obtain ⟨k', v'⟩ := hd
    by_cases h1 : k' = k
    · subst h1
      simp only [updSet, if_pos rfl, alookup]
      by_cases h2 : k' = k2 <;> simp [h2]
    · simp only [updSet, if_neg h1, alookup]
      by_cases h2 : k' = k2
      · subst h2
        have hne : ¬ k = k' := fun h => h1 h.symm
        simp [hne]
      · simp [h2, ih]

theorem alookup_append {β : Type} (m₁ m₂ : List (String × β)) (k : String) :
    alookup (m₁ ++ m₂) k =
      match alookup m₁ k with
      | some v => some v
      | none => alookup m₂ k := by
  induction m₁ with
  | nil => simp [alookup]
  | cons hd tl ih =>
    obtain ⟨k', v'⟩ := hd
    by_cases h : k' = k <;> simp [alookup, h, ih]

theorem updSet_of_alookup_none {β : Type} (m : List (String × β)) (k : String)
    (v : β) (h : alookup m k = none) : updSet m k v = m ++ [(k, v)] := by
  induction m with
  | nil => simp [updSet]
  | cons hd tl ih =>
    obtain ⟨k', v'⟩ := hd
    by_cases h1 : k' = k
    · simp [alookup, h1] at h
    · simp only [alookup, if_neg h1] at h
      simp [updSet, h1, ih h]

theorem alookup_eq_none_iff {β : Type} (m : List (String × β)) (k : String) :
    alookup m k = none ↔ k ∉ keys m := by
  induction m with
  | nil => simp [alookup, keys_nil]
  | cons hd tl ih =>
    obtain ⟨k', v'⟩ := hd
    by_cases h : k' = k
    · subst h
      simp [alookup, keys_cons]
    · have hne : k ≠ k' := fun he => h he.symm
      simp [alookup, h, keys_cons, List.mem_cons, hne, ih]

theorem keys_updAdd (m : List (String × ℚ)) (k : String) (v : ℚ) :
    keys (updAdd m k v) = if k ∈ keys m then keys m else keys m ++ [k] := by
  induction m with
  | nil => simp [updAdd, keys]
  | cons hd tl ih =>
    obtain ⟨k', v'⟩ := hd
    by_cases h : k' = k
    · subst h
      rw [show updAdd ((k', v') :: tl) k' v = (k', v' + v) :: tl from by
        simp [updAdd]]
      simp only [keys_cons]
      rw [if_pos (List.mem_cons_self _ _)]
    · have hne : ¬ k = k' := fun he => h he.symm
      simp only [updAdd, if_neg h, keys_cons, ih]
      by_cases h2 : k ∈ keys tl
      · rw [if_pos h2, if_pos (List.mem_cons_of_mem _ h2)]
      · rw [if_neg h2, if_neg (by simp [List.mem_cons, hne, h2]),
          List.cons_append]

theorem nodup_keys_updAdd (m : List (String × ℚ)) (k : String) (v : ℚ)
    (h : (keys m).Nodup) : (keys (updAdd m k v)).Nodup := by
  rw [keys_updAdd]
  by_cases h2 : k ∈ keys m
  · simpa [h2] using h
  · simp only [h2, if_false]
    simpa [List.nodup_append] using ⟨h, h2⟩

theorem sumVals_updAdd (m : List (String × ℚ)) (k : String) (v : ℚ) :
    sumVals (updAdd m k v) = sumVals m + v := by
  induction m with
  | nil => simp [updAdd, sumVals]
  | cons hd tl ih =>
    obtain ⟨k', v'⟩ := hd
    by_cases h : k' = k
    · simp only [updAdd, if_pos h, sumVals_cons]
      ring
    · simp only [updAdd, if_neg h, sumVals_cons, ih]
      ring

theorem alookup_map_of_nodup {α : Type} (key : α → String) (f : α → ℚ)
    (l : List α) (x : α) (hnd : (l.map key).Nodup) (hmem : x ∈ l) :
    alookup (l.map (fun a => (key a, f a))) (key x) = some (f x) := by
  induction l with
  | nil => simp at hmem
  | cons hd tl ih =>
    rw [List.mem_cons] at hmem
    simp only [List.map_cons, List.nodup_cons] at hnd
    rcases hmem with hx | hx
    · subst hx
      simp [alookup]
    · have hne : key hd ≠ key x := by
        intro hk
        exact hnd.1 (hk ▸ List.mem_map_of_mem key hx)
      simp only [List.map_cons, alookup, if_neg hne]
      exact ih hnd.2 hx

/-! ### Overview fold lemmas -/

theorem ovStep_sleeves_value (db : DB) (st : OvState)
    (r : Position × Instrument) :
    (ovStep db st r).sleeves_value =
      updAdd st.sleeves_value (normalizeSleeve r.2.asset_class)
        (resolved_value db r.1 r.2) := by
  by_cases h : 0 < latest_px_eur db r.2.id r.2.currency <;>
    simp [ovStep, resolved_value, h]

theorem ovStep_total (db : DB) (st : OvState) (r : Position × Instrument) :
    (ovStep db st r).total = st.total + resolved_value db r.1 r.2 := by
  by_cases h : 0 < latest_px_eur db r.2.id r.2.currency <;>
    simp [ovStep, resolved_value, h]

theorem ov_foldl_total (db : DB) (l : List (Position × Instrument))
    (st : OvState) :
    (l.foldl (ovStep db) st).total =
      st.total + (l.map (fun r => resolved_value db r.1 r.2)).sum := by
  induction l generalizing st with
  | nil => simp
  | cons hd tl ih =>
    simp only [List.foldl_cons, List.map_cons, List.sum_cons, ih, ovStep_total]
    ring

theorem ov_foldl_sumVals (db : DB) (l : List (Position × Instrument))
    (st : OvState) :
    sumVals ((l.foldl (ovStep db) st).sleeves_value) =
      sumVals st.sleeves_value +
        (l.map (fun r => resolved_value db r.1 r.2)).sum := by
  induction l generalizing st with
  | nil => simp
  | cons hd tl ih =>
    simp only [List.foldl_cons, List.map_cons, List.sum_cons, ih,
      ovStep_sleeves_value, sumVals_updAdd]
    ring

theorem ov_foldl_nodup (db : DB) (l : List (Position × Instrument))
    (st : OvState) (h : (keys st.sleeves_value).Nodup) :
    (keys ((l.foldl (ovStep db) st).sleeves_value)).Nodup := by
  induction l generalizing st with
  | nil => exact h
  | cons hd tl ih =>
    apply ih
    rw [ovStep_sleeves_value]
    exact nodup_keys_updAdd _ _ _ h

theorem latest_overview_total (db : DB) :
    (latest_overview db).total_value =
      ((rows db).map (fun r => resolved_value db r.1 r.2)).sum := by
  simpa [latest_overview] using ov_foldl_total db (rows db) ⟨[], [], 0⟩

theorem map_value_sleeveLine (m : List (String × ℚ)) (c : ℚ)
    (fr : List (String × String)) :
    (m.map (sleeveLine c fr)).map (fun sw => sw.value) = m.map Prod.snd := by
  induction m with
  | nil => rfl
  | cons hd tl ih => simp [sleeveLine, ih]

theorem map_weight_sleeveLine (m : List (String × ℚ)) (c : ℚ)
    (fr : List (String × String)) :
    (m.map (sleeveLine c fr)).map (fun sw => sw.weight) =
      m.map (fun kv => if 0 < c then kv.2 / c else 0) := by
  induction m with
  | nil => rfl
  | cons hd tl ih => simp [sleeveLine, ih]

theorem map_class_sleeveLine (m : List (String × ℚ)) (c : ℚ)
    (fr : List (String × String)) :
    (m.map (sleeveLine c fr)).map (fun sw => sw.asset_class) = keys m := by
  induction m with
  | nil => rfl
  | cons hd tl ih => simp [sleeveLine, keys, ih]

theorem sum_map_div (l : List ℚ) (c : ℚ) :
    (l.map (fun x => x / c)).sum = l.sum / c := by
  induction l with
  | nil => simp
  | cons hd tl ih => simp [ih, add_div]

theorem sumVals_div (m : List (String × ℚ)) (c : ℚ) :
    (m.map (fun kv => kv.2 / c)).sum = sumVals m / c := by
  induction m with
  | nil => simp [sumVals]
  | cons hd tl ih =>
    obtain ⟨k, v⟩ := hd
    simp [sumVals_cons, ih, add_div]

theorem foldl_updSet_append {α : Type} (key : α → String) (g : α → ℚ)
    (bs : List α) (acc : List (String × ℚ))
    (hnone : ∀ x ∈ bs, alookup acc (key x) = none)
    (hnd : (bs.map key).Nodup) :
    bs.foldl (fun d x => updSet d (key x) (g x)) acc =
      acc ++ bs.map (fun x => (key x, g x)) := by
  induction bs generalizing acc with
  | nil => simp
  | cons b tl ih =>
    simp only [List.foldl_cons, List.map_cons]
    rw [updSet_of_alookup_none _ _ _ (hnone b (List.mem_cons_self _ _))]
    rw [ih]
    · simp
    · intro x hx
      rw [alookup_append, hnone x (List.mem_cons_of_mem _ hx)]
      have hne : key b ≠ key x := by
        simp only [List.map_cons, List.nodup_cons] at hnd
        intro he
        exact hnd.1 (he ▸ List.mem_map_of_mem key hx)
      simp [alookup, hne]
    · simp only [List.map_cons, List.nodup_cons] at hnd
      exact hnd.2

theorem driftMap_eq_map (targets : List (String × ℚ)) (bs : List SleeveWeight)
    (hnd : (bs.map (fun sw => sw.asset_class)).Nodup) :
    driftMap targets bs = bs.map (fun sw =>
      (sw.asset_class,
       sw.weight -
         (if (alookup targets sw.asset_class).getD sw.weight = 0 then 0
          else (alookup targets sw.asset_class).getD sw.weight))) := by
  have h := foldl_updSet_append (fun sw => sw.asset_class)
    (fun sw => sw.weight -
      (if (alookup targets sw.asset_class).getD sw.weight = 0 then 0
       else (alookup targets sw.asset_class).getD sw.weight))
    bs [] (fun x _ => rfl) hnd
  simpa [driftMap] using h

theorem by_sleeve_class_nodup (db : DB) :
    ((latest_overview db).by_sleeve.map (fun sw => sw.asset_class)).Nodup := by
  have h := ov_foldl_nodup db (rows db) ⟨[], [], 0⟩ (by simp [keys])
  simpa [latest_overview, map_class_sleeveLine] using h

/-! ### Claim C5 -/

/-- Claim C5: in every overview produced by `latest_overview`, each sleeve
weight equals its value divided by the total value when the total is
positive, and the weights then sum to exactly 1 (rationals model the float
arithmetic, so the floating-point tolerance is not needed); when the total
value is 0 every weight is 0 and the division is never taken. -/
theorem overview_weight_normalization (db : DB) :
    (0 < (latest_overview db).total_value →
       ((latest_overview db).by_sleeve.map (fun sw => sw.weight)).sum = 1) ∧
    ((latest_overview db).total_value = 0 →
       ∀ sw ∈ (latest_overview db).by_sleeve, sw.weight = 0) ∧
    (∀ sw ∈ (latest_overview db).by_sleeve,
       sw.weight =
         if 0 < (latest_overview db).total_value then
           sw.value / (latest_overview db).total_value
         else 0) := by
  obtain ⟨m, fr, t, hst⟩ :
      ∃ m fr t, (rows db).foldl (ovStep db) ⟨[], [], 0⟩ = OvState.mk m fr t :=
    ⟨_, _, _, rfl⟩
  have hover : latest_overview db =
      { total_value := t
        by_sleeve := m.map (sleeveLine t fr)
        drift := driftMap (overviewTargets db) (m.map (sleeveLine t fr)) } := by
    simp [latest_overview, hst]
  have hsum : sumVals m = t := by
    have h1 := ov_foldl_sumVals db (rows db) ⟨[], [], 0⟩
    have h2 := ov_foldl_total db (rows db) ⟨[], [], 0⟩
    rw [hst] at h1 h2
    dsimp only at h1 h2
    rw [sumVals_nil, zero_add] at h1
    rw [zero_add] at h2
    exact h1.trans h2.symm
  rw [hover]
  refine ⟨?_, ?_, ?_⟩
  · intro hpos
    dsimp only at hpos ⊢
    rw [map_weight_sleeveLine]
    have hcongr : m.map (fun kv => if 0 < t then kv.2 / t else 0) =
        m.map (fun kv => kv.2 / t) :=
      List.map_congr_left (fun kv _ => if_pos hpos)
    rw [hcongr, sumVals_div, hsum, div_self (ne_of_gt hpos)]
  · intro h0 sw hsw
    dsimp only at h0 hsw
    rw [List.mem_map] at hsw
    obtain ⟨kv, _, rfl⟩ := hsw
    simp [sleeveLine, h0]
  · intro sw hsw
    dsimp only at hsw ⊢
    rw [List.mem_map] at hsw
    obtain ⟨kv, _, rfl⟩ := hsw
    simp [sleeveLine]

/-- Claim C5 witness: in the end-to-end scenario store the total is positive
and the sleeve weights sum to exactly 1. -/
theorem overview_weight_normalization_witness :
    ((latest_overview dbE2E).by_sleeve.map (fun sw => sw.weight)).sum = 1 :=
  (overview_weight_normalization dbE2E).1 (by with_unfolding_all decide)

/-! ### Claim C1 -/

/-- Claim C1 counterexample: in `dbC1` the Equity sleeve has weight 1 and no
configured target, yet its drift entry is 0 — not weight − 0 = 1 as the
claimed zero-default formula would require. -/
theorem overview_drift_counterexample :
    alookup (latest_overview dbC1).drift "Equity" = some 0 ∧
    (∃ sw ∈ (latest_overview dbC1).by_sleeve,
       sw.asset_class = "Equity" ∧ sw.weight = 1) ∧
    alookup (overviewTargets dbC1) "Equity" = none ∧
    alookup (latest_overview dbC1).drift "Equity" ≠ some (1 - 0) := by
  refine ⟨by with_unfolding_all decide,
    ⟨⟨"Equity", 10, 1, "ok"⟩, by with_unfolding_all decide, rfl, rfl⟩,
    by with_unfolding_all decide, by with_unfolding_all decide⟩

/-- Claim C1 (amended): for every sleeve in the overview, when a policy
target is configured for its asset class the drift entry is
weight − target; when none is configured (in particular when no policy
exists) the target defaults to the sleeve's own current weight, so the drift
entry is 0 — untracked sleeves make no drift contribution. -/
theorem overview_drift_spec (db : DB) (sw : SleeveWeight)
    (hmem : sw ∈ (latest_overview db).by_sleeve) :
    (∀ w, alookup (overviewTargets db) sw.asset_class = some w →
       alookup (latest_overview db).drift sw.asset_class =
         some (sw.weight - w)) ∧
    (alookup (overviewTargets db) sw.asset_class = none →
       alookup (latest_overview db).drift sw.asset_class = some 0) := by
  have hnd := by_sleeve_class_nodup db
  have hdrift : (latest_overview db).drift =
      driftMap (overviewTargets db) (latest_overview db).by_sleeve := by
    simp [latest_overview]
  rw [hdrift, driftMap_eq_map _ _ hnd]
  have hl := alookup_map_of_nodup (fun sw => sw.asset_class)
    (fun sw => sw.weight -
      (if (alookup (overviewTargets db) sw.asset_class).getD sw.weight = 0
       then 0
       else (alookup (overviewTargets db) sw.asset_class).getD sw.weight))
    (latest_overview db).by_sleeve sw hnd hmem
  dsimp only at hl
  refine ⟨?_, ?_⟩
  · intro w hw
    rw [hl, hw]
    rcases eq_or_ne w 0 with h0 | h0 <;> simp [h0]
  · intro hnone
    rw [hl, hnone]
    rcases eq_or_ne sw.weight 0 with h0 | h0 <;> simp [h0]

/-- Claim C1 (amended) witness: in `dbP` the Equity sleeve has weight 1 and a
configured target of 60%, so its drift entry is 1 − 6/10. -/
theorem overview_drift_spec_witness :
    alookup (latest_overview dbP).drift sleeveP.asset_class =
      some (sleeveP.weight - 6/10) :=
  (overview_drift_spec dbP sleeveP (by with_unfolding_all decide)).1 (6/10)
    (by with_unfolding_all decide)

/-! ### Claim C3 -/

/-- Claim C3: `latest_px_eur` resolves prices by exactly these steps in
order: (1) no price observation → 0; (2) instrument found with asset class
Crypto → latest observed price unmodified; (3) otherwise if the native
currency upper-cases to EUR → observed price unmodified regardless of FX
data; (4) otherwise if the latest FX observation for the currency is absent
or non-positive → 0; (5) otherwise observed price divided by the rate. -/
theorem latest_px_eur_steps (db : DB) (inst_id : Nat) (ccy : String) :
    (db.prices.filter (fun p => p.instrument_id == inst_id) = [] →
       latest_px_eur db inst_id ccy = 0) ∧
    (∀ p, latestBy (fun p => p.ts)
        (db.prices.filter (fun p => p.instrument_id == inst_id)) = some p →
      ((∀ i, findInstrument db inst_id = some i → i.asset_class = "Crypto" →
          latest_px_eur db inst_id ccy = p.price) ∧
       ((findInstrument db inst_id).any
            (fun i => i.asset_class == "Crypto") = false →
          ccy.toUpper = "EUR" → latest_px_eur db inst_id ccy = p.price) ∧
       ((findInstrument db inst_id).any
            (fun i => i.asset_class == "Crypto") = false →
          ccy.toUpper ≠ "EUR" →
          ((latestBy (fun f => f.ts)
              (db.fx_rates.filter (fun f => f.ccy == ccy.toUpper)) = none →
             latest_px_eur db inst_id ccy = 0) ∧
           (∀ fx, latestBy (fun f => f.ts)
                (db.fx_rates.filter (fun f => f.ccy == ccy.toUpper)) =
                  some fx →
             (fx.rate_vs_eur ≤ 0 → latest_px_eur db inst_id ccy = 0) ∧
             (0 < fx.rate_vs_eur →
                latest_px_eur db inst_id ccy =
                  p.price / fx.rate_vs_eur)))))) := by
  constructor
  · intro hfil
    simp [latest_px_eur, hfil, latestBy]
  · intro p hp
    refine ⟨?_, ?_, ?_⟩
    · intro i hi hcrypto
      simp [latest_px_eur, hp, hi, hcrypto]
    · intro hnc heur
      simp [latest_px_eur, hp, hnc, heur]
    · intro hnc hneur
      constructor
      · intro hfx
        simp [latest_px_eur, hp, hnc, hneur, hfx]
      · intro fx hfx
        constructor
        · intro hle
          rcases eq_or_lt_of_le hle with h0 | h0
          · simp [latest_px_eur, hp, hnc, hneur, hfx, h0]
          · simp [latest_px_eur, hp, hnc, hneur, hfx, ne_of_lt h0,
              le_of_lt h0]
        · intro hpos
          simp [latest_px_eur, hp, hnc, hneur, hfx, hpos.ne',
            not_le.mpr hpos]

/-- Claim C3 witness: in `dbW` the USD-native instrument with observed price
100 and latest USD rate 11/10 resolves to 100 / (11/10). -/
theorem latest_px_eur_steps_witness :
    latest_px_eur dbW 1 "USD" = 100 / (11/10) :=
  ((((latest_px_eur_steps dbW 1 "USD").2 ⟨1, 1, 100⟩
      (by with_unfolding_all decide)).2.2
    (by with_unfolding_all decide) (by with_unfolding_all decide)).2
    ⟨"USD", 1, 11/10⟩ (by with_unfolding_all decide)).2
    (by with_unfolding_all decide)

/-! ### Claim C2 -/

/-- Claim C2: whenever price resolution yields a non-positive per-unit value,
the position's value follows the strict fallback priority — the recorded
entry_total if positive, else quantity × per-unit cost_basis if both
positive, else 0; concretely, the `dbC2` position (entry_total 1000,
cost_basis 50, quantity 10, no price observation) resolves to exactly
1000, not 500. -/
theorem fallback_priority (db : DB) (pos : Position) (inst : Instrument)
    (hpx : latest_px_eur db inst.id inst.currency ≤ 0) :
    (0 < pos.entry_total → resolved_value db pos inst = pos.entry_total) ∧
    (pos.entry_total ≤ 0 → 0 < pos.cost_basis → 0 < pos.quantity →
       resolved_value db pos inst = pos.quantity * pos.cost_basis) ∧
    (pos.entry_total ≤ 0 → ¬ (0 < pos.cost_basis ∧ 0 < pos.quantity) →
       resolved_value db pos inst = 0) ∧
    (latest_overview dbC2).total_value = 1000 := by
  have hnpx : ¬ 0 < latest_px_eur db inst.id inst.currency := not_lt.mpr hpx
  refine ⟨?_, ?_, ?_,
    by set_option maxRecDepth 4096 in with_unfolding_all decide⟩
  · intro het
    simp [resolved_value, hnpx, fallback_value, het]
  · intro het hcb hq
    have hnet : ¬ 0 < pos.entry_total := not_lt.mpr het
    simp [resolved_value, hnpx, fallback_value, hnet, hcb, hq, hcb.ne',
      hq.ne']
  · intro het hncq
    have hnet : ¬ 0 < pos.entry_total := not_lt.mpr het
    simp only [resolved_value, if_neg hnpx, fallback_value, if_neg hnet]
    rw [if_neg]
    rintro ⟨_, hcb, _, hq⟩
    exact hncq ⟨hcb, hq⟩

/-- Claim C2 witness: the `dbC2` position has a non-positive resolved price
and a positive entry_total, so its resolved value is its entry_total. -/
theorem fallback_priority_witness :
    resolved_value dbC2 posC2 instFund = posC2.entry_total :=
  (fallback_priority dbC2 posC2 instFund (by with_unfolding_all decide)).1
    (by with_unfolding_all decide)

/-! ### Claim C10 -/

/-- Claim C10: when the resolved per-unit price is non-positive and the
recorded entry_total is positive, the position is valued at entry_total
regardless of its quantity — in particular a closed position still
contributes its full entry_total — whereas with a positive live price it is
valued at quantity × price, which is non-positive when quantity ≤ 0; and
each row contributes exactly its resolved value to the overview total. -/
theorem closed_position_valuation (db : DB) (pos : Position)
    (inst : Instrument) (st : OvState) :
    (latest_px_eur db inst.id inst.currency ≤ 0 → 0 < pos.entry_total →
       resolved_value db pos inst = pos.entry_total) ∧
    (0 < latest_px_eur db inst.id inst.currency →
       resolved_value db pos inst =
         pos.quantity * latest_px_eur db inst.id inst.currency) ∧
    (0 < latest_px_eur db inst.id inst.currency → pos.quantity ≤ 0 →
       resolved_value db pos inst ≤ 0) ∧
    ((ovStep db st (pos, inst)).total =
       st.total + resolved_value db pos inst) := by
  refine ⟨?_, ?_, ?_, ovStep_total db st (pos, inst)⟩
  · intro hpx het
    simp [resolved_value, not_lt.mpr hpx, fallback_value, het]
  · intro hpx
    simp [resolved_value, hpx]
  · intro hpx hq
    simp only [resolved_value, if_pos hpx]
    exact mul_nonpos_iff.mpr (Or.inr ⟨hq, le_of_lt hpx⟩)

/-- Claim C10 witness: the closed position of `dbC10` (quantity −2,
entry_total 500, no price) resolves to its full entry_total of 500. -/
theorem closed_position_valuation_witness :
    resolved_value dbC10 posC10 instEq = posC10.entry_total :=
  (closed_position_valuation dbC10 posC10 instEq ⟨[], [], 0⟩).1
    (by with_unfolding_all decide) (by with_unfolding_all decide)

/-! ### Claim C6 -/

theorem fallback_value_nonneg (pos : Position) : 0 ≤ fallback_value pos := by
  rw [fallback_value]
  split
  · next h => exact le_of_lt h
  · split
    · next h => exact le_of_lt (mul_pos h.2.2.2 h.2.1)
    · exact le_refl 0

theorem snapStep_snaps (db : DB) (ts : Nat) (st : SnapState)
    (r : Position × Instrument) :
    (snapStep db ts st r).snaps = st.snaps ++
      [{ account_id := r.1.account_id, instrument_id := r.2.id, ts := ts,
         qty := r.1.quantity,
         px_eur := latest_px_eur db r.2.id r.2.currency,
         value_eur := resolved_value db r.1 r.2 }] := by
  by_cases h : 0 < latest_px_eur db r.2.id r.2.currency <;>
    simp [snapStep, resolved_value, h]

theorem snap_foldl_snaps (db : DB) (ts : Nat)
    (l : List (Position × Instrument)) (st : SnapState) :
    (l.foldl (snapStep db ts) st).snaps = st.snaps ++
      l.map (fun r =>
        { account_id := r.1.account_id, instrument_id := r.2.id, ts := ts,
          qty := r.1.quantity,
          px_eur := latest_px_eur db r.2.id r.2.currency,
          value_eur := resolved_value db r.1 r.2 }) := by
  induction l generalizing st with
  | nil => simp
  | cons hd tl ih =>
    simp [ih, snapStep_snaps]

theorem capture_snaps_eq (db : DB) (ts : Nat) :
    (capture_eod_snapshots db ts).1 = (rows db).map
      (fun r =>
        { account_id := r.1.account_id, instrument_id := r.2.id, ts := ts,
          qty := r.1.quantity,
          px_eur := latest_px_eur db r.2.id r.2.currency,
          value_eur := resolved_value db r.1 r.2 }) := by
  simp [capture_eod_snapshots, snap_foldl_snaps]

theorem rows_pos_mem (db : DB) (r : Position × Instrument) (h : r ∈ rows db) :
    r.1 ∈ db.positions := by
  rw [rows, List.mem_filterMap] at h
  obtain ⟨pos, hpos, hmap⟩ := h
  rcases hfind : findInstrument db pos.instrument_id with _ | i
  · rw [hfind] at hmap
    simp at hmap
  · rw [hfind] at hmap
    simp at hmap
    rw [← hmap]
    exact hpos

/-- Claim C6 counterexample: in `dbC6` a position with quantity −1 and a
positive live price of 10 resolves to −10; the negative value is written into
the captured position snapshot and appears as a negative sleeve value in the
overview. -/
theorem resolved_value_counterexample :
    resolved_value dbC6 posNeg instEq = -10 ∧
    (∃ ps ∈ (capture_eod_snapshots dbC6 5).1, ps.value_eur < 0) ∧
    (∃ sw ∈ (latest_overview dbC6).by_sleeve, sw.value < 0) := by
  refine ⟨by with_unfolding_all decide, ?_, ?_⟩
  · exact ⟨⟨1, 1, 5, -1, 10, -10⟩, by with_unfolding_all decide,
      by with_unfolding_all decide⟩
  · exact ⟨⟨"Equity", -10, 0, "ok"⟩, by with_unfolding_all decide,
      by with_unfolding_all decide⟩

/-- Claim C6 (amended): for every position with non-negative quantity the
resolved value is non-negative, and when all stored positions have
non-negative quantities every position snapshot written by
`capture_eod_snapshots` has a non-negative value. -/
theorem resolved_value_nonneg (db : DB) (ts : Nat) (pos : Position)
    (inst : Instrument) (hq : 0 ≤ pos.quantity)
    (hall : ∀ p ∈ db.positions, 0 ≤ p.quantity) :
    0 ≤ resolved_value db pos inst ∧
    ∀ ps ∈ (capture_eod_snapshots db ts).1, 0 ≤ ps.value_eur := by
  have hrv : ∀ (q : Position) (i : Instrument), 0 ≤ q.quantity →
      0 ≤ resolved_value db q i := by
    intro q i hq0
    simp only [resolved_value]
    split
    · next h => exact mul_nonneg hq0 (le_of_lt h)
    · exact fallback_value_nonneg q
  refine ⟨hrv pos inst hq, ?_⟩
  intro ps hps
  rw [capture_snaps_eq, List.mem_map] at hps
  obtain ⟨r, hr, rfl⟩ := hps
  exact hrv r.1 r.2 (hall r.1 (rows_pos_mem db r hr))

/-- Claim C6 (amended) witness: the `dbC2` position has quantity 10 ≥ 0 and
its resolved value 1000 is non-negative. -/
theorem resolved_value_nonneg_witness :
    0 ≤ resolved_value dbC2 posC2 instFund :=
  (resolved_value_nonneg dbC2 3 posC2 instFund (by with_unfolding_all decide)
    (by with_unfolding_all decide)).1

/-! ### Claim C8 -/

/-- Claim C8: `history` returns exactly one (timestamp, total value) point
per recorded portfolio snapshot — a permutation of the projected snapshot
rows, each point carrying that snapshot's recorded total — and, whenever the
recorded timestamps are distinct, the points are strictly ordered by
ascending timestamp regardless of insertion order; `history` reads the store
and performs no mutation or aggregation. -/
theorem history_spec (db : DB)
    (h : (db.portfolio_snapshots.map (fun s => s.ts)).Nodup) :
    (history db).Perm
      (db.portfolio_snapshots.map (fun s => (s.ts, s.total_value_eur))) ∧
    (history db).Pairwise (fun a b => a.1 < b.1) := by
  have hperm := List.mergeSort_perm db.portfolio_snapshots
    (fun a b => a.ts ≤ b.ts)
  constructor
  · rw [history]
    exact hperm.map _
  · rw [history]
    have hso : (db.portfolio_snapshots.mergeSort
        (fun a b => a.ts ≤ b.ts)).Pairwise
          (fun a b => decide (a.ts ≤ b.ts) = true) :=
      List.sorted_mergeSort
        (fun a b c hab hbc => by
          simp only [decide_eq_true_eq] at hab hbc ⊢
          exact Nat.le_trans hab hbc)
        (fun a b => by simpa using Nat.le_total a.ts b.ts)
        db.portfolio_snapshots
    have hnodup : (db.portfolio_snapshots.mergeSort
        (fun a b => a.ts ≤ b.ts)).Pairwise (fun a b => a.ts ≠ b.ts) := by
      have h2 : ((db.portfolio_snapshots.mergeSort
          (fun a b => a.ts ≤ b.ts)).map (fun s => s.ts)).Nodup :=
        ((hperm.map (fun s => s.ts)).nodup_iff).mpr h
      simp only [List.Nodup, List.pairwise_map] at h2
      exact h2
    have hlt := (hso.and hnodup).imp
      (fun hab => lt_of_le_of_ne (by simpa using hab.1) hab.2)
    refine List.Pairwise.map _ (fun a b hab => ?_) hlt
    exact hab

/-- Claim C8 witness: with snapshots inserted at timestamps 3, 1, 2, the
history points are a permutation of the projections and strictly increasing
in timestamp. -/
theorem history_spec_witness :
    (history dbH).Perm
      (dbH.portfolio_snapshots.map (fun s => (s.ts, s.total_value_eur))) ∧
    (history dbH).Pairwise (fun a b => a.1 < b.1) :=
  history_spec dbH (by with_unfolding_all decide)

/-! ### Claim C9 -/

/-- Claim C9: missing data never aborts the valuation core — an instrument
with no price observation resolves to the data value 0, the overview total is
always the sum of every row's resolved value (so one instrument falling back
never aborts aggregation of the others), and only the absence of a
configured policy surfaces as the caller-visible rebalance failure. -/
theorem missing_data_as_data (db : DB) (inst_id : Nat) (ccy : String)
    (pol : PolicyIn) :
    (db.prices.filter (fun p => p.instrument_id == inst_id) = [] →
       latest_px_eur db inst_id ccy = 0) ∧
    ((latest_overview db).total_value =
       ((rows db).map (fun r => resolved_value db r.1 r.2)).sum) ∧
    (get_rebalance db = Except.error "No policy set." ↔
       get_policy db = none) ∧
    (get_policy db = some pol →
       get_rebalance db =
         Except.ok (suggest_trades (latest_overview db) pol)) := by
  refine ⟨?_, latest_overview_total db, ?_, ?_⟩
  · intro hfil
    simp [latest_px_eur, hfil, latestBy]
  · constructor
    · intro he
      rcases hpol : get_policy db with _ | p
      · rfl
      · simp [get_rebalance, hpol] at he
    · intro hn
      simp [get_rebalance, hn]
  · intro hp
    simp [get_rebalance, hp]

/-- Claim C9 witness: `dbC2` has no policy, so the rebalance endpoint fails
with the policy precondition error. -/
theorem missing_data_as_data_witness :
    get_rebalance dbC2 = Except.error "No policy set." :=
  (missing_data_as_data dbC2 1 "EUR" ⟨"EUR", []⟩).2.2.1.mpr rfl

/-! ### Claim C4 -/

theorem rebFold_eq (ov : PortfolioOverview) (pol : PolicyIn)
    (l : List SleeveWeight) (acc : List String × List TradeSuggestion) :
    l.foldl (rebStep ov pol) acc =
      (acc.1 ++ l.filterMap (rebFlag pol),
       acc.2 ++ l.filterMap (rebSugg ov pol)) := by
  induction l generalizing acc with
  | nil => simp
  | cons hd tl ih =>
    rw [List.foldl_cons, ih]
    rcases hlk : alookup (policyTargetsMap pol) hd.asset_class with _ | t
    · simp [rebStep, rebFlag, rebSugg, hlk]
    · by_cases hb : t.band < |hd.weight - t.weight|
      · simp [rebStep, rebFlag, rebSugg, hlk, hb]
      · simp [rebStep, rebFlag, rebSugg, hlk, hb]

theorem suggest_trades_eq (ov : PortfolioOverview) (pol : PolicyIn) :
    suggest_trades ov pol =
      { hard_drift := ov.by_sleeve.filterMap (rebFlag pol)
        suggestions := ov.by_sleeve.filterMap (rebSugg ov pol) } := by
  rw [suggest_trades, rebFold_eq]
  simp

theorem rebFlag_class (pol : PolicyIn) (sw : SleeveWeight) (ac : String)
    (h : rebFlag pol sw = some ac) :
    sw.asset_class = ac ∧
    ∃ t, alookup (policyTargetsMap pol) sw.asset_class = some t ∧
      t.band < |sw.weight - t.weight| := by
  rcases hlk : alookup (policyTargetsMap pol) sw.asset_class with _ | t
  · simp [rebFlag, hlk] at h
  · by_cases hb : t.band < |sw.weight - t.weight|
    · simp only [rebFlag, hlk, if_pos hb, Option.some.injEq] at h
      exact ⟨h, t, rfl, hb⟩
    · simp [rebFlag, hlk, hb] at h

theorem rebSugg_class (ov : PortfolioOverview) (pol : PolicyIn)
    (sw : SleeveWeight) (sg : TradeSuggestion)
    (h : rebSugg ov pol sw = some sg) :
    sg.asset_class = sw.asset_class ∧
    ∃ t, alookup (policyTargetsMap pol) sw.asset_class = some t ∧
      t.band < |sw.weight - t.weight| ∧
      sg = { asset_class := sw.asset_class
             action := if 0 < ov.total_value * t.weight - sw.value then "BUY"
                       else "SELL"
             amount := |ov.total_value * t.weight - sw.value| } := by
  rcases hlk : alookup (policyTargetsMap pol) sw.asset_class with _ | t
  · simp [rebSugg, hlk] at h
  · by_cases hb : t.band < |sw.weight - t.weight|
    · simp only [rebSugg, hlk, if_pos hb, Option.some.injEq] at h
      subst h
      exact ⟨rfl, t, rfl, hb, rfl⟩
    · simp [rebSugg, hlk, hb] at h

theorem rebFlag_of (pol : PolicyIn) (sw : SleeveWeight) (t : PolicyTarget)
    (ht : alookup (policyTargetsMap pol) sw.asset_class = some t)
    (hb : t.band < |sw.weight - t.weight|) :
    rebFlag pol sw = some sw.asset_class := by
  simp [rebFlag, ht, hb]

theorem rebSugg_of (ov : PortfolioOverview) (pol : PolicyIn)
    (sw : SleeveWeight) (t : PolicyTarget)
    (ht : alookup (policyTargetsMap pol) sw.asset_class = some t)
    (hb : t.band < |sw.weight - t.weight|) :
    rebSugg ov pol sw = some
      { asset_class := sw.asset_class
        action := if 0 < ov.total_value * t.weight - sw.value then "BUY"
                  else "SELL"
        amount := |ov.total_value * t.weight - sw.value| } := by
  simp [rebSugg, ht, hb]

theorem filterMap_rebSugg_count (ov : PortfolioOverview) (pol : PolicyIn)
    (bs : List SleeveWeight) (sw : SleeveWeight)
    (hnd : (bs.map (fun s => s.asset_class)).Nodup) (hmem : sw ∈ bs)
    (sg : TradeSuggestion) (hsg : rebSugg ov pol sw = some sg) :
    (bs.filterMap (rebSugg ov pol)).countP
      (fun s => s.asset_class == sw.asset_class) = 1 := by
  induction bs with
  | nil => simp at hmem
  | cons hd tl ih =>
    simp only [List.map_cons, List.nodup_cons] at hnd
    rw [List.mem_cons] at hmem
    rcases hmem with rfl | hmem
    · rw [List.filterMap_cons_some hsg, List.countP_cons]
      have hzero : (tl.filterMap (rebSugg ov pol)).countP
          (fun s => s.asset_class == sw.asset_class) = 0 := by
        rw [List.countP_eq_zero]
        intro sg2 hsg2
        rw [List.mem_filterMap] at hsg2
        obtain ⟨sw2, hsw2, hsg2⟩ := hsg2
        have hcls := (rebSugg_class ov pol sw2 sg2 hsg2).1
        simp only [beq_iff_eq, hcls]
        intro hcontr
        exact hnd.1 (hcontr ▸ List.mem_map_of_mem (fun s => s.asset_class) hsw2)
      rw [hzero]
      have hcls := (rebSugg_class ov pol sw sg hsg).1
      simp [hcls]
    · have hcount := ih hnd.2 hmem
      have hne : hd.asset_class ≠ sw.asset_class := by
        intro hcontr
        exact hnd.1 (hcontr ▸ List.mem_map_of_mem (fun s => s.asset_class) hmem)
      rcases hhd : rebSugg ov pol hd with _ | sg2
      · rw [List.filterMap_cons_none hhd]
        exact hcount
      · rw [List.filterMap_cons_some hhd, List.countP_cons]
        have hcls := (rebSugg_class ov pol hd sg2 hhd).1
        simp [hcount, hcls, hne]

/-- Claim C4: `suggest_trades` considers only sleeves present in both the
overview and the policy targets (sleeves without a target are neither
flagged nor suggested); a considered sleeve is flagged iff
|weight − target| strictly exceeds the band, so drift exactly equal to the
band is not flagged; and each flagged sleeve yields exactly one suggestion
whose amount is |targetWeight × totalValue − sleeveValue|, with action BUY
when that trade value is positive and SELL when it is negative. -/
theorem suggest_trades_spec (ov : PortfolioOverview) (pol : PolicyIn)
    (hnd : (ov.by_sleeve.map (fun sw => sw.asset_class)).Nodup) :
    (∀ ac ∈ (suggest_trades ov pol).hard_drift,
       ∃ sw ∈ ov.by_sleeve, sw.asset_class = ac ∧
         alookup (policyTargetsMap pol) ac ≠ none) ∧
    (∀ sg ∈ (suggest_trades ov pol).suggestions,
       alookup (policyTargetsMap pol) sg.asset_class ≠ none) ∧
    (∀ sw ∈ ov.by_sleeve, ∀ t,
       alookup (policyTargetsMap pol) sw.asset_class = some t →
       ((sw.asset_class ∈ (suggest_trades ov pol).hard_drift ↔
           t.band < |sw.weight - t.weight|) ∧
        (|sw.weight - t.weight| = t.band →
           sw.asset_class ∉ (suggest_trades ov pol).hard_drift) ∧
        (t.band < |sw.weight - t.weight| →
           ((suggest_trades ov pol).suggestions.countP
               (fun sg => sg.asset_class == sw.asset_class) = 1 ∧
            ∀ sg ∈ (suggest_trades ov pol).suggestions,
              sg.asset_class = sw.asset_class →
                (sg.amount = |ov.total_value * t.weight - sw.value| ∧
                 (0 < ov.total_value * t.weight - sw.value →
                    sg.action = "BUY") ∧
                 (ov.total_value * t.weight - sw.value < 0 →
                    sg.action = "SELL")))))) := by
  rw [suggest_trades_eq]
  dsimp only
  refine ⟨?_, ?_, ?_⟩
  · intro ac hac
    rw [List.mem_filterMap] at hac
    obtain ⟨sw, hsw, hf⟩ := hac
    obtain ⟨hcls, t, ht, _⟩ := rebFlag_class pol sw ac hf
    refine ⟨sw, hsw, hcls, ?_⟩
    rw [← hcls, ht]
    simp
  · intro sg hsg
    rw [List.mem_filterMap] at hsg
    obtain ⟨sw, hsw, hf⟩ := hsg
    obtain ⟨hcls, t, ht, _, _⟩ := rebSugg_class ov pol sw sg hf
    rw [hcls, ht]
    simp
  · intro sw hsw t ht
    have hiff : sw.asset_class ∈ ov.by_sleeve.filterMap (rebFlag pol) ↔
        t.band < |sw.weight - t.weight| := by
      constructor
      · intro hmem
        rw [List.mem_filterMap] at hmem
        obtain ⟨sw2, hsw2, hf⟩ := hmem
        obtain ⟨hcls2, t2, ht2, hb2⟩ := rebFlag_class pol sw2 sw.asset_class hf
        have hsweq : sw2 = sw := List.inj_on_of_nodup_map hnd hsw2 hsw hcls2
        subst hsweq
        rw [ht] at ht2
        obtain rfl := Option.some.inj ht2
        exact hb2
      · intro hb
        rw [List.mem_filterMap]
        exact ⟨sw, hsw, rebFlag_of pol sw t ht hb⟩
    refine ⟨hiff, ?_, ?_⟩
    · intro heq hmem
      have hb := hiff.mp hmem
      rw [heq] at hb
      exact lt_irrefl _ hb
    · intro hb
      refine ⟨filterMap_rebSugg_count ov pol ov.by_sleeve sw hnd hsw _
        (rebSugg_of ov pol sw t ht hb), ?_⟩
      intro sg hsg hcls
      rw [List.mem_filterMap] at hsg
      obtain ⟨sw2, hsw2, hf⟩ := hsg
      obtain ⟨hcls2, t2, ht2, hb2, hrec⟩ := rebSugg_class ov pol sw2 sg hf
      have hsweq : sw2 = sw :=
        List.inj_on_of_nodup_map hnd hsw2 hsw (hcls2.symm.trans hcls)
      subst hsweq
      rw [ht] at ht2
      obtain rfl := Option.some.inj ht2
      subst hrec
      refine ⟨rfl, ?_, ?_⟩
      · intro hpos
        simp only [if_pos hpos]
      · intro hneg
        simp only [if_neg (not_lt.mpr (le_of_lt hneg))]

set_option maxRecDepth 8192 in
/-- Claim C4 witness: in the concrete overview `ovR` with policy `polR`, the
Equity sleeve drifts 10% beyond its 5% band and is flagged out of band. -/
theorem suggest_trades_spec_witness :
    sleeveEq.asset_class ∈ (suggest_trades ovR polR).hard_drift :=
  (((suggest_trades_spec ovR polR (by with_unfolding_all decide)).2.2 sleeveEq
      (by with_unfolding_all decide) targetEq
      (by with_unfolding_all decide)).1).mpr (by with_unfolding_all decide)

/-! ### Claim C7 -/

theorem snap_foldl_agree (db : DB) (ts : Nat)
    (l : List (Position × Instrument)) (stS : SnapState) (stO : OvState)
    (hv : stS.sleeves_value = stO.sleeves_value)
    (ht : stS.total = stO.total) :
    (l.foldl (snapStep db ts) stS).sleeves_value =
      (l.foldl (ovStep db) stO).sleeves_value ∧
    (l.foldl (snapStep db ts) stS).total =
      (l.foldl (ovStep db) stO).total := by
  induction l generalizing stS stO with
  | nil => exact ⟨hv, ht⟩
  | cons hd tl ih =>
    apply ih
    · by_cases h : 0 < latest_px_eur db hd.2.id hd.2.currency <;>
        simp [snapStep, ovStep, h, hv]
    · by_cases h : 0 < latest_px_eur db hd.2.id hd.2.currency <;>
        simp [snapStep, ovStep, h, hv, ht]

theorem captureGo_none (db : DB) (ts : Nat)
    (l : List (Position × Instrument)) (idx : Nat) (st : SnapState) :
    captureGo db ts none idx st l =
      Except.ok (l.foldl (snapStep db ts) st) := by
  induction l generalizing idx st with
  | nil => rfl
  | cons hd tl ih => simp [captureGo, ih]

theorem captureGo_fail (db : DB) (ts : Nat) (k : Nat)
    (l : List (Position × Instrument)) (idx : Nat) (st : SnapState)
    (h1 : idx ≤ k) (h2 : k < idx + l.length) :
    captureGo db ts (some k) idx st l =
      Except.error "simulated failure" := by
  induction l generalizing idx st with
  | nil =>
    simp only [List.length_nil, Nat.add_zero] at h2
    omega
  | cons hd tl ih =>
    by_cases he : k = idx
    · simp [captureGo, he]
    · simp only [captureGo]
      rw [if_neg (by simp [he])]
      apply ih
      · omega
      · simp only [List.length_cons] at h2
        omega

theorem captureGo_beyond (db : DB) (ts : Nat) (k : Nat)
    (l : List (Position × Instrument)) (idx : Nat) (st : SnapState)
    (h : idx + l.length ≤ k) :
    captureGo db ts (some k) idx st l =
      Except.ok (l.foldl (snapStep db ts) st) := by
  induction l generalizing idx st with
  | nil => rfl
  | cons hd tl ih =>
    simp only [List.length_cons] at h
    have hne : ¬ k = idx := by omega
    simp only [captureGo]
    rw [if_neg (by simp [hne])]
    rw [ih _ _ (by omega)]
    rfl

theorem capture_faulty_none (db : DB) (ts : Nat) :
    capture_eod_snapshots_faulty db ts none =
      Except.ok (capture_eod_snapshots db ts) := by
  rw [capture_eod_snapshots_faulty, captureGo_none]
  simp [capture_eod_snapshots]

theorem capture_faulty_fail (db : DB) (ts : Nat) (k : Nat)
    (hk : k ≤ (rows db).length) :
    capture_eod_snapshots_faulty db ts (some k) =
      Except.error "simulated failure" := by
  rcases lt_or_eq_of_le hk with hlt | heq
  · rw [capture_eod_snapshots_faulty,
      captureGo_fail db ts k (rows db) 0 _ (Nat.zero_le k) (by omega)]
  · rw [capture_eod_snapshots_faulty,
      captureGo_beyond db ts k (rows db) 0 _ (by omega)]
    simp [heq]

theorem capture_totals_eq (db : DB) (ts : Nat) :
    (capture_eod_snapshots db ts).2.total_value_eur =
      (latest_overview db).total_value ∧
    (capture_eod_snapshots db ts).2.by_sleeve_json =
      (latest_overview db).by_sleeve.map
        (fun sw => (sw.asset_class, sw.value)) := by
  have hag := snap_foldl_agree db ts (rows db) ⟨[], 0, []⟩ ⟨[], [], 0⟩ rfl rfl
  have hmap : ∀ (m : List (String × ℚ)) (c : ℚ)
      (fr : List (String × String)),
      (m.map (sleeveLine c fr)).map (fun sw => (sw.asset_class, sw.value)) =
        m := by
    intro m c fr
    induction m with
    | nil => rfl
    | cons hd tl ih => simp [sleeveLine, ih]
  constructor
  · simpa [capture_eod_snapshots, latest_overview] using hag.2
  · simp only [capture_eod_snapshots, latest_overview, hmap]
    exact hag.1

/-- Claim C7: a successful snapshot run commits, in one step, one position
snapshot per joined row — valued with the same price-resolution and fallback
rule as the overview — plus exactly one portfolio snapshot whose total and
per-sleeve values equal the overview's; a run that fails after writing any
number of position snapshots but before the portfolio snapshot leaves the
persisted store unchanged, so the history reader sees no partial rows. -/
theorem capture_snapshot_spec (db : DB) (ts : Nat) (k : Nat)
    (hk : k ≤ (rows db).length) :
    (capture_snapshot db ts none =
       ({ db with
           position_snapshots :=
             db.position_snapshots ++ (capture_eod_snapshots db ts).1
           portfolio_snapshots :=
             db.portfolio_snapshots ++ [(capture_eod_snapshots db ts).2] },
        true)) ∧
    ((capture_eod_snapshots db ts).1.length = (rows db).length) ∧
    ((capture_eod_snapshots db ts).1 = (rows db).map
       (fun r =>
         { account_id := r.1.account_id, instrument_id := r.2.id, ts := ts,
           qty := r.1.quantity,
           px_eur := latest_px_eur db r.2.id r.2.currency,
           value_eur := resolved_value db r.1 r.2 })) ∧
    ((capture_eod_snapshots db ts).2.total_value_eur =
       (latest_overview db).total_value) ∧
    ((capture_eod_snapshots db ts).2.by_sleeve_json =
       (latest_overview db).by_sleeve.map
         (fun sw => (sw.asset_class, sw.value))) ∧
    (capture_snapshot db ts (some k) = (db, false)) ∧
    (history (capture_snapshot db ts (some k)).1 = history db) := by
  refine ⟨?_, ?_, capture_snaps_eq db ts, (capture_totals_eq db ts).1,
    (capture_totals_eq db ts).2, ?_, ?_⟩
  · rw [capture_snapshot, capture_faulty_none]
  · rw [capture_snaps_eq]
    simp
  · rw [capture_snapshot, capture_faulty_fail db ts k hk]
  · rw [capture_snapshot, capture_faulty_fail db ts k hk]

/-- Claim C7 witness: in the end-to-end store a simulated failure after one
of two position snapshots leaves the store unchanged and the run reports
failure. -/
theorem capture_snapshot_spec_witness :
    capture_snapshot dbE2E 7 (some 1) = (dbE2E, false) :=
  (capture_snapshot_spec dbE2E 7 1
    (by with_unfolding_all decide)).2.2.2.2.2.1
